import Mathlib

/-!
Verification development for `pytorch_mnist_training.py`: a single-run MNIST
training-and-logging script.  The script's own code (logging control flow,
step-counter arithmetic, the conda-environment merge utility, the pyfunc
inference wrapper and the final `log_softmax` normalization) is embedded
shallowly below; the neural-network layer implementations, the optimizer, the
dataset loader, the tracking backend and the event writer are external library
collaborators and are represented by explicit function parameters.
-/

namespace MnistScript

/-! ## Conda-environment manifest model (`add_libraries_to_conda_env`) -/

/-- Entry of the `dependencies` list of a conda environment: either a plain
package string or a nested dict mapping keys to lists of package names
(Python `type(_element) == dict` distinguishes the two). -/
inductive DepEntry where
  | str (s : String)
  | dict (entries : List (String × List String))
deriving DecidableEq, Repr

/-- Python `"pip" in _element.keys()` for a dict entry; `False` for a string. -/
def DepEntry.hasPipKey : DepEntry → Bool
  | .str _ => false
  | .dict entries => entries.any (fun kv => kv.1 == "pip")

/-- Value of the `"pip"` binding of a dict entry, when present
(Python `_element["pip"]`). -/
def DepEntry.pipList : DepEntry → Option (List String)
  | .str _ => none
  | .dict entries => (entries.find? (fun kv => kv.1 == "pip")).map (fun kv => kv.2)

/-- Python `d["pip"] = d["pip"] + libraries` on a dict entry: rebind the
`"pip"` key to its old value extended by `libraries`.  Dict keys are unique in
Python, so mapping over bindings matches in-place assignment. -/
def DepEntry.appendPip (libraries : List String) : DepEntry → DepEntry
  | .str s => .str s
  | .dict entries =>
      .dict (entries.map (fun kv => if kv.1 == "pip" then (kv.1, kv.2 ++ libraries) else kv))

/-- Conda environment manifest: the keys of `mlflow.pytorch.get_default_conda_env()`
(`name`, `channels`, `dependencies`); `add_libraries_to_conda_env` reads and
writes only `dependencies`. -/
structure CondaEnv where
  name : String
  channels : List String
  dependencies : List DepEntry
deriving DecidableEq, Repr

/-- Loop of `add_libraries_to_conda_env` that scans `dependencies` for the
first dict entry carrying the `"pip"` key and breaks with its index, leaving
`pip_index = None` when no entry matches. -/
def findPipIndex (deps : List DepEntry) : Option ℕ :=
  deps.findIdx? (fun e => e.hasPipKey)

/-- Shallow embedding of `add_libraries_to_conda_env(_conda_env, libraries,
conda_dependencies)`.  The Python body extends the dependency list with
`conda_dependencies`, locates the first nested dict carrying the `"pip"` key,
appends `libraries` to that dict's `"pip"` list in place and returns the
manifest.  When no entry carries the key, `pip_index` is still `None` and
`dependencies[pip_index]` raises `TypeError`; the embedding returns `none`
there. -/
def add_libraries_to_conda_env (env : CondaEnv) (libraries : List String)
    (conda_dependencies : List DepEntry) : Option CondaEnv :=
  let dependencies := env.dependencies ++ conda_dependencies
  match findPipIndex dependencies with
  | none => none
  | some i =>
      some { env with
               dependencies :=
                 dependencies.set i ((dependencies.getD i (.str "")).appendPip libraries) }

/-! ## Logging schedule model (train / test loops, step counters)

The training loop logs at every batch index `b` with `b % log_interval == 0`:
one `train_loss` scalar via `log_scalar` and eight weight histograms via
`Net.log_weights`, all keyed by `step = epoch * len(train_loader) + batch_idx`.
The evaluation loop emits `test_loss` and `test_accuracy` scalars keyed by
`step = (epoch + 1) * len(train_loader)`.  The scalar/histogram *values* are
produced by the opaque numeric collaborators, so the schedule records event
kind, name and step in emission order. -/

/-- TensorBoard-side event as emitted by the script: a named scalar
(`writer.add_scalar`) or a named histogram (`writer.add_histogram`), keyed by a
step counter. -/
inductive TBEvent where
  | scalar (name : String) (step : ℕ)
  | histogram (name : String) (step : ℕ)
deriving DecidableEq, Repr

/-- Step counter attached to an event. -/
def TBEvent.step : TBEvent → ℕ
  | .scalar _ s => s
  | .histogram _ s => s

/-- The eight histogram events emitted by `Net.log_weights(step)`, in source
order. -/
def logWeightsEvents (step : ℕ) : List TBEvent :=
  [ .histogram "weights/conv1/weight" step,
    .histogram "weights/conv1/bias" step,
    .histogram "weights/conv2/weight" step,
    .histogram "weights/conv2/bias" step,
    .histogram "weights/fc1/weight" step,
    .histogram "weights/fc1/bias" step,
    .histogram "weights/fc2/weight" step,
    .histogram "weights/fc2/bias" step ]

/-- Events emitted by `train(epoch)` over `batchesPerEpoch` training batches
with logging cadence `logInterval`: at every batch index `b` with
`b % logInterval = 0`, one `train_loss` scalar followed by the weight
histograms, keyed by `step = epoch * batchesPerEpoch + b`. -/
def trainEpochEvents (epoch batchesPerEpoch logInterval : ℕ) : List TBEvent :=
  (List.range batchesPerEpoch).flatMap (fun b =>
    if b % logInterval = 0 then
      .scalar "train_loss" (epoch * batchesPerEpoch + b) ::
        logWeightsEvents (epoch * batchesPerEpoch + b)
    else [])

/-- Events emitted by `test(epoch)`: the `test_loss` and `test_accuracy`
scalars, both keyed by `step = (epoch + 1) * batchesPerEpoch`. -/
def testEpochEvents (epoch batchesPerEpoch : ℕ) : List TBEvent :=
  [ .scalar "test_loss" ((epoch + 1) * batchesPerEpoch),
    .scalar "test_accuracy" ((epoch + 1) * batchesPerEpoch) ]

/-- Events of the whole run: `for epoch in range(1, epochs + 1): train(epoch);
test(epoch)`, in emission order. -/
def runEvents (epochs batchesPerEpoch logInterval : ℕ) : List TBEvent :=
  (List.range epochs).flatMap (fun e =>
    trainEpochEvents (e + 1) batchesPerEpoch logInterval ++
      testEpochEvents (e + 1) batchesPerEpoch)

/-- Step sequence of the run's emitted events, in call order. -/
def runSteps (epochs batchesPerEpoch logInterval : ℕ) : List ℕ :=
  (runEvents epochs batchesPerEpoch logInterval).map TBEvent.step

/-! ## Step-monotonicity of the emission schedule -/

/-- Steps of the events one epoch emits (its `train(epoch)` events followed by
its `test(epoch)` events). -/
def epochBlockSteps (e batchesPerEpoch logInterval : ℕ) : List ℕ :=
  (trainEpochEvents (e + 1) batchesPerEpoch logInterval ++
    testEpochEvents (e + 1) batchesPerEpoch).map TBEvent.step

/-! ## Run-level embedding (parameter evolution and artifact finalization) -/

/-- Run configuration parsed from the command line (the float-valued knobs are
carried as rationals; no claim depends on their values). -/
structure RunConfig where
  batchSize : ℕ
  testBatchSize : ℕ
  epochs : ℕ
  lr : ℚ
  momentum : ℚ
  enableCuda : Bool
  seed : ℕ
  logInterval : ℕ
deriving DecidableEq, Repr

/-- Parameter evolution of `train(epoch)`: one `optimizer.step()` per training
batch, represented by an opaque update function `upd` (the optimizer and the
batch data are external collaborators; only the number and order of updates is
the script's own control flow). -/
def trainEpochParams {P : Type} (upd : P → ℕ → P) (batchesPerEpoch : ℕ) (p : P) : P :=
  (List.range batchesPerEpoch).foldl upd p

/-- Parameter evolution of the whole epoch loop; `test(epoch)` performs no
update (it runs under `torch.no_grad()` and calls no optimizer). -/
def runParams {P : Type} (upd : P → ℕ → P) (batchesPerEpoch epochs : ℕ) (p : P) : P :=
  (List.range epochs).foldl (fun q _ => trainEpochParams upd batchesPerEpoch q) p

/-- Observable outcome of the `with mlflow.start_run():` block: the emitted
TensorBoard events, the final model parameters, and the artifact paths
uploaded at run end (`log_artifacts(..., artifact_path="events")` and
`log_model("pytorch-model", ...)`, both unconditional). -/
structure RunResult (P : Type) where
  events : List TBEvent
  finalParams : P
  artifacts : List String
deriving Repr

/-- Shallow embedding of the run block: log params, run
`for epoch in range(1, epochs + 1): train(epoch); test(epoch)`, then upload
the event directory and register the scripted model, wrapper and manifest. -/
def mlflowRun {P : Type} (upd : P → ℕ → P) (cfg : RunConfig) (batchesPerEpoch : ℕ)
    (p : P) : RunResult P :=
  { events := runEvents cfg.epochs batchesPerEpoch cfg.logInterval,
    finalParams := runParams upd batchesPerEpoch cfg.epochs p,
    artifacts := ["events", "pytorch-model"] }

/-! ## The two metric sinks of `log_scalar`

`log_scalar(name, value, step)` calls `writer.add_scalar(name, value, step)`
and `mlflow.log_metric(name, value)`.  Each sink records exactly the arguments
the script passes: the local writer receives name, value and step; the MLflow
client call carries no step argument, recorded as `none`. -/

/-- State of the two metric sinks: the local TensorBoard writer's scalar
records `(name, value, step)`, and the remote MLflow metric calls
`(name, value, step-argument-if-any)`.  `V` is the scalar value type. -/
structure SinkState (V : Type) where
  writerScalars : List (String × V × ℕ)
  mlflowMetrics : List (String × V × Option ℕ)
deriving Repr

/-- Shallow embedding of `log_scalar(name, value, step)`. -/
def log_scalar {V : Type} (name : String) (value : V) (step : ℕ)
    (s : SinkState V) : SinkState V :=
  { writerScalars := s.writerScalars ++ [(name, value, step)],
    mlflowMetrics := s.mlflowMetrics ++ [(name, value, none)] }

/-! ## Numeric model: `Net.forward`, the evaluation pass, the wrapper

Matrices are lists of rows of reals (row index = source dim 0, the batch axis;
column index = source dim 1, the class axis).  The convolutional / linear /
pooling / dropout layers up to `fc2` are external library collaborators and
enter as an opaque `body` function of the parameters, the training flag and
the input; the script's own final step `F.log_softmax(x, dim=0)` is embedded
exactly. -/

/-- Column-wise sum of exponentials: the normalizer of `log_softmax(x, dim=0)`
at class-column `j` sums over the batch axis. -/
noncomputable def colSumExp (m : List (List ℝ)) (j : ℕ) : ℝ :=
  (m.map (fun r => Real.exp (r.getD j 0))).sum

/-- Shallow embedding of `F.log_softmax(x, dim=0)` (the source's final
activation): entry `(i, j)` becomes `x i j - log (sum over rows i' of
exp (x i' j))` — the normalization runs along dim 0, the batch axis. -/
noncomputable def logSoftmaxDim0 (m : List (List ℝ)) : List (List ℝ) :=
  m.map (fun r => (List.range r.length).map
    (fun j => r.getD j 0 - Real.log (colSumExp m j)))

/-- Modelled from the spec: the per-row class-axis normalization
(`F.log_softmax(x, dim=1)`) that a "class-probability vector per row" requires;
stated only to compare against `logSoftmaxDim0`, the code's actual behavior. -/
noncomputable def logSoftmaxDim1 (m : List (List ℝ)) : List (List ℝ) :=
  m.map (fun r => r.map (fun x => x - Real.log ((r.map Real.exp).sum)))

/-- `Net.forward`: the layer stack `body` (external collaborators, closed over
the parameters `p` and the dropout-relevant training flag) followed by the
script's `F.log_softmax(·, dim=0)`. -/
noncomputable def netForward {P : Type} (body : P → Bool → List (List ℝ) → List (List ℝ))
    (p : P) (t : Bool) (x : List (List ℝ)) : List (List ℝ) :=
  logSoftmaxDim0 (body p t x)

/-- Index of the first maximum of a row (`tensor.max(1)[1]` per row). -/
noncomputable def argmaxIdx (r : List ℝ) : ℕ :=
  (List.range r.length).foldl (fun best j => if r.getD best 0 < r.getD j 0 then j else best) 0

/-- `F.nll_loss(output, target, reduction='sum')`: the summed negative picked
log-probabilities `-output[i][target_i]`. -/
noncomputable def nllSumBatch (out : List (List ℝ)) (targets : List ℕ) : ℝ :=
  ((out.zip targets).map (fun q => -(q.1.getD q.2 0))).sum

/-- `pred.eq(target).sum()`: how many per-row argmax predictions match the
targets. -/
noncomputable def countCorrect (out : List (List ℝ)) (targets : List ℕ) : ℕ :=
  List.countP (fun q => q.1 == q.2) ((out.map argmaxIdx).zip targets)

/-- `len(test_loader.dataset)`: the evaluation feed's batches partition the
held-out dataset, so its size is the total number of target rows. -/
def datasetSize (feed : List (List (List ℝ) × List ℕ)) : ℕ :=
  (feed.map (fun b => b.2.length)).sum

/-- Aggregates computed by `test(epoch)`: mean loss, percentage accuracy, and
the raw correct count. -/
structure TestOutcome where
  test_loss : ℝ
  test_accuracy : ℝ
  correct : ℕ

/-- Accumulation part of `test(epoch)`: with gradient tracking disabled, sum
batch NLL losses and correct counts over the full feed, then divide by the
dataset size. -/
noncomputable def testPass {P : Type} (body : P → Bool → List (List ℝ) → List (List ℝ))
    (p : P) (feed : List (List (List ℝ) × List ℕ)) : TestOutcome :=
  { test_loss :=
      (feed.map (fun b => nllSumBatch (netForward body p false b.1) b.2)).sum /
        (datasetSize feed : ℝ),
    test_accuracy :=
      100 * ((feed.map (fun b => countCorrect (netForward body p false b.1) b.2)).sum : ℝ) /
        (datasetSize feed : ℝ),
    correct := (feed.map (fun b => countCorrect (netForward body p false b.1) b.2)).sum }

/-- Mutable state of the `Net` module: its parameter tensors and the
train/eval mode flag (`model.train()` / `model.eval()`). -/
structure ModelState (P : Type) where
  params : P
  training : Bool

/-- Shallow embedding of `test(epoch)` as a state transformer: set eval mode,
accumulate the aggregates under `torch.no_grad()` (no optimizer call, no
parameter write), then emit the two scalars keyed by `(epoch + 1) * B`. -/
noncomputable def test {P : Type} (body : P → Bool → List (List ℝ) → List (List ℝ))
    (epoch B : ℕ) (st : ModelState P) (feed : List (List (List ℝ) × List ℕ))
    (sinks : SinkState ℝ) : ModelState P × SinkState ℝ :=
  let st2 : ModelState P := { st with training := false }
  let r := testPass body st2.params feed
  (st2, log_scalar "test_accuracy" r.test_accuracy ((epoch + 1) * B)
          (log_scalar "test_loss" r.test_loss ((epoch + 1) * B) sinks))

/-- The pyfunc context: `context.artifacts["scripted_model"]`, a handle to the
serialized scripted-model file. -/
structure PyFuncContext (F : Type) where
  scripted_model : F

/-- `PytorchModelWrapper`: its only attribute `self.model` is populated by
`load_context` and absent before (the construct-then-load pattern). -/
structure PytorchModelWrapper (M : Type) where
  model : Option M

/-- `load_context`: deserialize the scripted model from the context's artifact
(`torch.jit.load(...).cpu()`, an external collaborator `jitLoad`) into
`self.model`. -/
def load_context {F M : Type} (jitLoad : F → M) (_self : PytorchModelWrapper M)
    (context : PyFuncContext F) : PytorchModelWrapper M :=
  { model := some (jitLoad context.scripted_model) }

/-- Row loop of `predict`: decode each row's base64 image payload in order
and collect the decoded arrays (`nparray_list`); a malformed row raises,
aborting the whole batch with no partial result. -/
def decodeRows {Img : Type} (decode : String → Option Img) :
    List String → Option (List Img)
  | [] => some []
  | row :: rest =>
      match decode row with
      | none => none
      | some img => (decodeRows decode rest).map (fun imgs => img :: imgs)

/-- Loaded scripted model: the deserialized graph plus its persisted
train/eval flag.  `torch.jit.script(model)` captures `self.training`, and
`load_context` runs `torch.jit.load(...).cpu()` with no `.eval()`, so an
artifact scripted after `test()` ran is in eval mode, while an `--epochs 0`
run scripts the freshly constructed `Net` still in training mode. -/
structure ScriptedModel (G : Type) where
  graph : G
  training : Bool

/-- Forward pass of the loaded scripted model.  `Net.forward` contains
dropout layers gated on the training flag (`self.conv2_drop` and
`F.dropout(x, training=self.training)`): in eval mode they are the identity
and the pass is the pure function `fwdEval` of the weights and the input; in
training mode they draw fresh masks from the global RNG, modelled as
`fwdTrain` consuming and returning the RNG state. -/
def scriptedForward {G Img R : Type}
    (fwdEval : G → List Img → List (List ℝ))
    (fwdTrain : G → R → List Img → List (List ℝ) × R)
    (m : ScriptedModel G) (rng : R) (imgs : List Img) : List (List ℝ) × R :=
  if m.training then fwdTrain m.graph rng imgs else (fwdEval m.graph imgs, rng)

/-- `predict(context, model_input)`: decode each row's base64 image payload
(the base64 / PIL / numpy chain is the external collaborator `decode`), stack
the decoded images, run the loaded scripted model's forward pass (threading
the global RNG state, which only a training-mode model consumes), and return
the per-row argmax labels.  No wrapper attribute is assigned. -/
noncomputable def predict {G Img R : Type} (decode : String → Option Img)
    (fwdEval : G → List Img → List (List ℝ))
    (fwdTrain : G → R → List Img → List (List ℝ) × R)
    (w : PytorchModelWrapper (ScriptedModel G)) (rng : R)
    (model_input : List String) :
    (Option (List ℕ) × PytorchModelWrapper (ScriptedModel G)) × R :=
  match w.model with
  | none => ((none, w), rng)
  | some m =>
      match decodeRows decode model_input with
      | none => ((none, w), rng)
      | some imgs =>
          ((some ((scriptedForward fwdEval fwdTrain m rng imgs).1.map argmaxIdx), w),
            (scriptedForward fwdEval fwdTrain m rng imgs).2)

/-! ## Helper lemmas for the manifest merge -/

/-- Rebinding the `"pip"` key extends the `"pip"` value and nothing else. -/
theorem pipList_appendPip (e : DepEntry) (libs : List String) :
    (e.appendPip libs).pipList = e.pipList.map (fun l => l ++ libs) := by
  cases e with
  | str s => rfl
  | dict entries =>
      simp only [DepEntry.appendPip, DepEntry.pipList]
      induction entries with
      | nil => rfl
      | cons kv rest ih =>
          simp only [List.map_cons, List.find?_cons]
          by_cases h : (kv.1 == "pip") = true
          · obtain ⟨k, v⟩ := kv
            have hk : k = "pip" := by simpa using h
            subst hk
            rfl
          · have h2 : (kv.1 == "pip") = false := by simpa using h
            simp only [h2, Bool.false_eq_true, if_false]
            exact ih

/-- C3: when no nested dict entry of the extended dependency list carries the
`"pip"` key, `add_libraries_to_conda_env` fails at the `dependencies[pip_index]`
lookup (embedded as `none`): it never returns a manifest, silently succeeds, or
creates the key. -/
theorem add_libraries_no_pip_errors (env : CondaEnv) (libraries : List String)
    (conda_dependencies : List DepEntry)
    (h : ∀ e ∈ env.dependencies ++ conda_dependencies, e.hasPipKey = false) :
    add_libraries_to_conda_env env libraries conda_dependencies = none := by
  have hfind : findPipIndex (env.dependencies ++ conda_dependencies) = none := by
    rw [findPipIndex, List.findIdx?_eq_none_iff]
    exact h
  simp [add_libraries_to_conda_env, hfind]

/-- Witness for C3 at a concrete manifest with no pip entry. -/
theorem add_libraries_no_pip_errors_witness :
    (∀ e ∈ (CondaEnv.mk "mlflow-env" ["defaults"] [.str "python=3.8"]).dependencies ++
        ([] : List DepEntry), e.hasPipKey = false) ∧
    add_libraries_to_conda_env (CondaEnv.mk "mlflow-env" ["defaults"] [.str "python=3.8"])
      ["Pillow"] [] = none :=
  ⟨by decide,
   add_libraries_no_pip_errors (CondaEnv.mk "mlflow-env" ["defaults"] [.str "python=3.8"])
     ["Pillow"] [] (by decide)⟩

/-- C4: appending `["Pillow"]` to a manifest whose first nested pip entry holds
`["mlflow"]` yields a manifest whose pip list is exactly `["mlflow", "Pillow"]`;
the `name` and `channels` keys, every other element of the dependencies list,
and the list length are unchanged. -/
theorem add_pillow_merge (env : CondaEnv) (i : ℕ) (entry : DepEntry)
    (hfind : findPipIndex env.dependencies = some i)
    (hentry : env.dependencies[i]? = some entry)
    (hpip : entry.pipList = some ["mlflow"]) :
    ∃ env2, add_libraries_to_conda_env env ["Pillow"] [] = some env2 ∧
      env2.name = env.name ∧
      env2.channels = env.channels ∧
      (env2.dependencies[i]?.bind DepEntry.pipList) = some ["mlflow", "Pillow"] ∧
      (∀ j, j ≠ i → env2.dependencies[j]? = env.dependencies[j]?) ∧
      env2.dependencies.length = env.dependencies.length := by
  have hlen : i < env.dependencies.length := by
    rcases (List.findIdx?_eq_some_iff_getElem).mp hfind with ⟨hl, _, _⟩
    exact hl
  have hgetD : env.dependencies.getD i (.str "") = entry := by
    simp [List.getD_eq_getElem?_getD, hentry]
  refine ⟨{ env with
             dependencies :=
               env.dependencies.set i ((env.dependencies.getD i (.str "")).appendPip
                 ["Pillow"]) }, ?_, rfl, rfl, ?_, ?_, ?_⟩
  · simp [add_libraries_to_conda_env, hfind]
  · rw [hgetD]
    rw [List.getElem?_set_self hlen]
    simp [pipList_appendPip, hpip]
  · intro j hj
    simp [List.getElem?_set_ne (fun hc => hj hc.symm)]
  · simp

/-- The run's step sequence is the concatenation of the per-epoch blocks. -/
theorem runSteps_eq_flatMap (epochs B L : ℕ) :
    runSteps epochs B L = (List.range epochs).flatMap (fun e => epochBlockSteps e B L) := by
  simp [runSteps, runEvents, epochBlockSteps, List.map_flatMap, Function.comp]

/-- Generic gluing lemma: a concatenation of internally sorted blocks whose
elements respect the block order is sorted. -/
theorem pairwise_le_flatMap_range (f : ℕ → List ℕ) (n : ℕ)
    (h1 : ∀ b, (f b).Pairwise (· ≤ ·))
    (h2 : ∀ b1 b2, b1 < b2 → ∀ x ∈ f b1, ∀ y ∈ f b2, x ≤ y) :
    ((List.range n).flatMap f).Pairwise (· ≤ ·) := by
  induction n with
  | zero => simp
  | succ m ih =>
      rw [List.range_succ, List.flatMap_append]
      rw [List.pairwise_append]
      refine ⟨ih, by simpa using h1 m, ?_⟩
      intro x hx y hy
      rcases List.mem_flatMap.mp hx with ⟨b, hb, hxb⟩
      rcases List.mem_flatMap.mp hy with ⟨b2, hb2, hyb⟩
      have hbm : b < m := List.mem_range.mp hb
      have hb2m : b2 = m := by simpa using hb2
      exact h2 b b2 (hb2m ▸ hbm) x hxb y hyb

/-- Every histogram event of `Net.log_weights(step)` carries that step. -/
theorem step_of_mem_logWeightsEvents (s0 : ℕ) (ev : TBEvent)
    (h : ev ∈ logWeightsEvents s0) : ev.step = s0 := by
  simp only [logWeightsEvents, List.mem_cons, List.not_mem_nil, or_false] at h
  rcases h with h | h | h | h | h | h | h | h <;> subst h <;> rfl

/-- Every event of `train(epoch)` carries step `epoch * B + b` for some logged
batch index `b < B` with `b % logInterval = 0`. -/
theorem step_of_mem_trainEpochEvents (e B L : ℕ) (ev : TBEvent)
    (h : ev ∈ trainEpochEvents e B L) :
    ∃ b, b < B ∧ b % L = 0 ∧ ev.step = e * B + b := by
  rcases List.mem_flatMap.mp h with ⟨b, hb, hevb⟩
  by_cases hc : b % L = 0
  · rw [if_pos hc] at hevb
    refine ⟨b, List.mem_range.mp hb, hc, ?_⟩
    rcases List.mem_cons.mp hevb with h1 | h1
    · subst h1; rfl
    · exact step_of_mem_logWeightsEvents _ _ h1
  · rw [if_neg hc] at hevb
    exact absurd hevb (List.not_mem_nil ev)

/-- Both events of `test(epoch)` carry step `(epoch + 1) * B`. -/
theorem step_of_mem_testEpochEvents (e B : ℕ) (ev : TBEvent)
    (h : ev ∈ testEpochEvents e B) : ev.step = (e + 1) * B := by
  simp only [testEpochEvents, List.mem_cons, List.not_mem_nil, or_false] at h
  rcases h with h | h <;> subst h <;> rfl

/-- Every step of epoch `e`'s block lies between `(e + 1) * B` (the epoch's
first train step) and `(e + 2) * B` (its test step). -/
theorem epochBlockSteps_bounds (e B L : ℕ) (s : ℕ) (hs : s ∈ epochBlockSteps e B L) :
    (e + 1) * B ≤ s ∧ s ≤ (e + 2) * B := by
  have h2 : (e + 2) * B = (e + 1) * B + B := by ring
  simp only [epochBlockSteps, List.map_append, List.mem_append] at hs
  rcases hs with hs | hs
  · rcases List.mem_map.mp hs with ⟨ev, hev, hstepev⟩
    rcases step_of_mem_trainEpochEvents (e + 1) B L ev hev with ⟨b, hbB, _, hstep⟩
    have hsv : s = (e + 1) * B + b := by rw [← hstepev, hstep]
    rw [h2]
    generalize hA : (e + 1) * B = A at hsv
    omega
  · rcases List.mem_map.mp hs with ⟨ev, hev, hstepev⟩
    have hsv : s = (e + 1 + 1) * B := by
      rw [← hstepev, step_of_mem_testEpochEvents (e + 1) B ev hev]
    have h3 : (e + 1 + 1) * B = (e + 2) * B := by ring
    rw [hsv, h3, h2]
    constructor
    · exact Nat.le_add_right _ _
    · exact Nat.le_refl _

/-- Each epoch block's step sequence is sorted: the logged train steps
increase with the batch index and are bounded by the epoch's test step. -/
theorem epochBlockSteps_pairwise (e B L : ℕ) :
    (epochBlockSteps e B L).Pairwise (· ≤ ·) := by
  simp only [epochBlockSteps, List.map_append]
  rw [List.pairwise_append]
  refine ⟨?_, ?_, ?_⟩
  · have hrw : (trainEpochEvents (e + 1) B L).map TBEvent.step =
        (List.range B).flatMap (fun b =>
          if b % L = 0 then List.replicate 9 ((e + 1) * B + b) else []) := by
      simp only [trainEpochEvents, List.map_flatMap]
      congr 1
      funext b
      by_cases hc : b % L = 0
      · rw [if_pos hc, if_pos hc]
        rfl
      · rw [if_neg hc, if_neg hc]
        rfl
    rw [hrw]
    apply pairwise_le_flatMap_range
    · intro b
      by_cases hc : b % L = 0
      · rw [if_pos hc]
        exact List.pairwise_replicate.mpr (Or.inr (Nat.le_refl _))
      · rw [if_neg hc]
        exact List.Pairwise.nil
    · intro b1 b2 hlt x hx y hy
      by_cases hc1 : b1 % L = 0
      · by_cases hc2 : b2 % L = 0
        · rw [if_pos hc1] at hx
          rw [if_pos hc2] at hy
          rw [List.eq_of_mem_replicate hx, List.eq_of_mem_replicate hy]
          exact Nat.add_le_add_left (Nat.le_of_lt hlt) _
        · rw [if_neg hc2] at hy
          exact absurd hy (List.not_mem_nil y)
      · rw [if_neg hc1] at hx
        exact absurd hx (List.not_mem_nil x)
  · simp [testEpochEvents, TBEvent.step]
  · intro x hx y hy
    have hb := epochBlockSteps_bounds e B L x
      (by simp only [epochBlockSteps, List.map_append, List.mem_append]; exact Or.inl hx)
    rcases List.mem_map.mp hy with ⟨ev, hev, hstepev⟩
    have hyv : y = (e + 1 + 1) * B := by
      rw [← hstepev, step_of_mem_testEpochEvents (e + 1) B ev hev]
    have h2 : (e + 2) * B = (e + 1 + 1) * B := by ring
    rw [hyv, ← h2]
    exact hb.2

/-- C5 (amended): with a positive logging interval, the step values attached
to the run's emitted events are monotonically non-decreasing in call order
(pairwise, hence also between adjacent events). -/
theorem runSteps_nondecreasing (epochs B L : ℕ) (_hL : 1 ≤ L) :
    List.Chain' (· ≤ ·) (runSteps epochs B L) := by
  rw [runSteps_eq_flatMap]
  apply List.Pairwise.chain'
  apply pairwise_le_flatMap_range
  · intro b
    exact epochBlockSteps_pairwise b B L
  · intro b1 b2 hlt x hx y hy
    have hxb := epochBlockSteps_bounds b1 B L x hx
    have hyb := epochBlockSteps_bounds b2 B L y hy
    have hmul : (b1 + 2) * B ≤ (b2 + 1) * B := Nat.mul_le_mul_right B (by omega)
    exact le_trans hxb.2 (le_trans hmul hyb.1)

/-- Witness for C5 (amended) at a concrete run shape. -/
theorem runSteps_nondecreasing_witness :
    1 ≤ 2 ∧ List.Chain' (· ≤ ·) (runSteps 2 3 2) :=
  ⟨by decide, runSteps_nondecreasing 2 3 2 (by decide)⟩

/-- C5 counterexample: the emitted step sequence is not strictly increasing —
already with one epoch, one batch per epoch and log interval 1, `test_loss`
and `test_accuracy` share a step, and every weight histogram shares its step
with its `train_loss` scalar. -/
theorem runSteps_not_strictly_increasing :
    ¬ List.Chain' (· < ·) (runSteps 1 1 1) := by
  have hval : runSteps 1 1 1 = [1, 1, 1, 1, 1, 1, 1, 1, 1, 2, 2] := by rfl
  rw [hval, List.chain'_cons]
  rintro ⟨h11, _⟩
  exact lt_irrefl 1 h11

/-- C8: for every run configuration with `epochs = 0` (and any optimizer
behavior, batch count and initial parameters), the epoch loop body never runs:
no event is emitted and no optimizer step changes the parameters, yet the
event directory upload and the model registration still happen. -/
theorem zero_epochs_run {P : Type} (upd : P → ℕ → P) (cfg : RunConfig) (B : ℕ) (p : P)
    (h : cfg.epochs = 0) :
    (mlflowRun upd cfg B p).events = [] ∧
    (mlflowRun upd cfg B p).finalParams = p ∧
    (mlflowRun upd cfg B p).artifacts = ["events", "pytorch-model"] := by
  refine ⟨?_, ?_, rfl⟩
  · simp [mlflowRun, runEvents, h]
  · simp [mlflowRun, runParams, h]

/-- Witness for C8 at the default CLI configuration with `--epochs 0`. -/
theorem zero_epochs_run_witness :
    (RunConfig.mk 64 1000 0 (1 / 100) (1 / 2) true 1 100).epochs = 0 ∧
    (mlflowRun (fun p b => p + b) (RunConfig.mk 64 1000 0 (1 / 100) (1 / 2) true 1 100)
        938 (5 : ℕ)).events = [] ∧
    (mlflowRun (fun p b => p + b) (RunConfig.mk 64 1000 0 (1 / 100) (1 / 2) true 1 100)
        938 (5 : ℕ)).finalParams = 5 ∧
    (mlflowRun (fun p b => p + b) (RunConfig.mk 64 1000 0 (1 / 100) (1 / 2) true 1 100)
        938 (5 : ℕ)).artifacts = ["events", "pytorch-model"] :=
  ⟨rfl,
   zero_epochs_run (fun p b => p + b) (RunConfig.mk 64 1000 0 (1 / 100) (1 / 2) true 1 100)
     938 (5 : ℕ) rfl⟩

/-- C10: for every epoch and every positive log interval, batch index 0
satisfies `0 % log_interval = 0`, so the epoch's first batch always logs: the
epoch emits a `train_loss` scalar and all eight weight histograms, each keyed
by step `epoch * batchesPerEpoch`. -/
theorem first_batch_always_logs (e B L : ℕ) (_hL : 1 ≤ L) (hB : 1 ≤ B) :
    TBEvent.scalar "train_loss" (e * B) ∈ trainEpochEvents e B L ∧
    ∀ ev ∈ logWeightsEvents (e * B), ev ∈ trainEpochEvents e B L := by
  have h0 : (0 : ℕ) ∈ List.range B := List.mem_range.mpr (by omega)
  have hmod : 0 % L = 0 := Nat.zero_mod L
  have hblock : TBEvent.scalar "train_loss" (e * B + 0) :: logWeightsEvents (e * B + 0) =
      (if 0 % L = 0 then
        TBEvent.scalar "train_loss" (e * B + 0) :: logWeightsEvents (e * B + 0)
       else []) := by rw [if_pos hmod]
  constructor
  · apply List.mem_flatMap.mpr
    refine ⟨0, h0, ?_⟩
    rw [← hblock]
    simp
  · intro ev hev
    apply List.mem_flatMap.mpr
    refine ⟨0, h0, ?_⟩
    rw [← hblock, Nat.add_zero]
    exact List.mem_cons_of_mem _ hev

/-- Witness for C10 at a concrete epoch shape. -/
theorem first_batch_always_logs_witness :
    (1 ≤ 3 ∧ 1 ≤ 2) ∧
    (TBEvent.scalar "train_loss" (1 * 2) ∈ trainEpochEvents 1 2 3 ∧
      ∀ ev ∈ logWeightsEvents (1 * 2), ev ∈ trainEpochEvents 1 2 3) :=
  ⟨⟨by decide, by decide⟩, first_batch_always_logs 1 2 3 (by decide) (by decide)⟩

/-- C1 counterexample: at the call `log_scalar("train_loss", 0, 5)` on empty
sinks, the local writer records the full `(name, value, step)` triple but the
remote tracking call carries no step argument: the remote sink does not
receive the same step index. -/
theorem log_scalar_remote_step_missing :
    (log_scalar "train_loss" (0 : ℚ) 5 (SinkState.mk [] [])).writerScalars =
      [("train_loss", (0 : ℚ), 5)] ∧
    (log_scalar "train_loss" (0 : ℚ) 5 (SinkState.mk [] [])).mlflowMetrics =
      [("train_loss", (0 : ℚ), (none : Option ℕ))] ∧
    (log_scalar "train_loss" (0 : ℚ) 5 (SinkState.mk [] [])).mlflowMetrics ≠
      [("train_loss", (0 : ℚ), (some 5 : Option ℕ))] := by
  refine ⟨rfl, rfl, ?_⟩
  simp [log_scalar]

/-- C1 (amended): every `log_scalar(name, value, step)` call appends the same
`(name, value)` pair to both sinks; the step index is attached only at the
local event writer, while the remote tracking client is called without a step
argument. -/
theorem log_scalar_both_sinks {V : Type} (name : String) (value : V) (step : ℕ)
    (s : SinkState V) :
    (log_scalar name value step s).writerScalars =
      s.writerScalars ++ [(name, value, step)] ∧
    (log_scalar name value step s).mlflowMetrics =
      s.mlflowMetrics ++ [(name, value, none)] :=
  ⟨rfl, rfl⟩

/-- C6: the evaluation pass never mutates the model's parameters: whatever the
layer stack, feed and epoch, the parameter component of the model state is
identical before and after `test` (the pass runs under `torch.no_grad()` and
performs no optimizer step; only the train/eval mode flag and the metric sinks
change). -/
theorem test_preserves_params {P : Type} (body : P → Bool → List (List ℝ) → List (List ℝ))
    (epoch B : ℕ) (st : ModelState P) (feed : List (List (List ℝ) × List ℕ))
    (sinks : SinkState ℝ) :
    (test body epoch B st feed sinks).1.params = st.params := rfl

/-- C7 counterexample: on a training-mode scripted model — the artifact an
`--epochs 0` run produces, since `Net` is constructed in training mode,
`test()` never runs, `torch.jit.script` captures `training = True` and
`load_context` loads it without `.eval()` — the dropout layers draw a fresh
mask from the global RNG on every call.  Instantiating the collaborators with
a mask stream whose first draw leaves class 0 ahead and whose second draw
leaves class 1 ahead, two successive `predict` calls on the identical one-row
input return the different label arrays `[0]` and `[1]`. -/
theorem predict_train_mode_not_deterministic :
    ((predict (fun (_ : String) => some ())
        (fun (_ : Unit) (_ : List Unit) => [])
        (fun (_ : Unit) (rng : ℕ) (_ : List Unit) =>
          (if rng = 0 then [[(1 : ℝ), 0]] else [[(0 : ℝ), 1]], rng + 1))
        (load_context (fun (_ : Unit) => ScriptedModel.mk () true)
          (PytorchModelWrapper.mk none) (PyFuncContext.mk ())) 0 ["img"]).1).1 =
      some [0] ∧
    ((predict (fun (_ : String) => some ())
        (fun (_ : Unit) (_ : List Unit) => [])
        (fun (_ : Unit) (rng : ℕ) (_ : List Unit) =>
          (if rng = 0 then [[(1 : ℝ), 0]] else [[(0 : ℝ), 1]], rng + 1))
        ((predict (fun (_ : String) => some ())
            (fun (_ : Unit) (_ : List Unit) => [])
            (fun (_ : Unit) (rng : ℕ) (_ : List Unit) =>
              (if rng = 0 then [[(1 : ℝ), 0]] else [[(0 : ℝ), 1]], rng + 1))
            (load_context (fun (_ : Unit) => ScriptedModel.mk () true)
              (PytorchModelWrapper.mk none) (PyFuncContext.mk ())) 0 ["img"]).1).2
        ((predict (fun (_ : String) => some ())
            (fun (_ : Unit) (_ : List Unit) => [])
            (fun (_ : Unit) (rng : ℕ) (_ : List Unit) =>
              (if rng = 0 then [[(1 : ℝ), 0]] else [[(0 : ℝ), 1]], rng + 1))
            (load_context (fun (_ : Unit) => ScriptedModel.mk () true)
              (PytorchModelWrapper.mk none) (PyFuncContext.mk ())) 0 ["img"]).2)
        ["img"]).1).1 = some [1] ∧
    (some [0] : Option (List ℕ)) ≠ some [1] := by
  have h10 : argmaxIdx [(1 : ℝ), 0] = 0 := by
    norm_num [argmaxIdx, List.range_succ]
  have h01 : argmaxIdx [(0 : ℝ), 1] = 1 := by
    norm_num [argmaxIdx, List.range_succ]
  refine ⟨?_, ?_, by simp⟩
  · simp [predict, load_context, decodeRows, scriptedForward, h10]
  · simp [predict, load_context, decodeRows, scriptedForward, h10, h01]

/-- C7 (amended): `predict` never mutates the wrapper, and on a loaded
scripted model whose persisted training flag is false (eval mode — true of
every artifact scripted after `test()` ran, i.e. of every run with at least
one epoch) the dropout layers are inert: the forward pass neither reads nor
advances the RNG, so calling `predict` twice on an identical input batch —
on the wrapper produced by `load_context` from the re-deserialized scripted
model, threading the wrapper and RNG states through — returns identical
label arrays.  For an `--epochs 0` artifact the flag is true, the second
call draws a fresh dropout mask, and identity is not guaranteed. -/
theorem predict_eval_mode_idempotent {F G Img R : Type} (decode : String → Option Img)
    (fwdEval : G → List Img → List (List ℝ))
    (fwdTrain : G → R → List Img → List (List ℝ) × R)
    (jitLoad : F → ScriptedModel G) (w0 : PytorchModelWrapper (ScriptedModel G))
    (ctx : PyFuncContext F) (rng : R) (input : List String)
    (heval : (jitLoad ctx.scripted_model).training = false) :
    ((predict decode fwdEval fwdTrain (load_context jitLoad w0 ctx) rng input).1).2 =
      load_context jitLoad w0 ctx ∧
    (predict decode fwdEval fwdTrain (load_context jitLoad w0 ctx) rng input).2 = rng ∧
    ((predict decode fwdEval fwdTrain
        ((predict decode fwdEval fwdTrain (load_context jitLoad w0 ctx) rng input).1).2
        ((predict decode fwdEval fwdTrain (load_context jitLoad w0 ctx) rng input).2)
        input).1).1 =
      ((predict decode fwdEval fwdTrain (load_context jitLoad w0 ctx) rng input).1).1 := by
  cases hd : decodeRows decode input with
  | none => simp [predict, load_context, hd]
  | some imgs => simp [predict, load_context, scriptedForward, heval, hd]

/-- Witness for C7 (amended) on a concretely loaded eval-mode model. -/
theorem predict_eval_mode_idempotent_witness :
    (((fun (_ : Unit) => ScriptedModel.mk () false)
        (PyFuncContext.mk () : PyFuncContext Unit).scripted_model).training = false) ∧
    (((predict (fun (_ : String) => some ()) (fun (_ : Unit) (_ : List Unit) => [[(1 : ℝ)]])
        (fun (_ : Unit) (r : ℕ) (_ : List Unit) => ([], r))
        (load_context (fun (_ : Unit) => ScriptedModel.mk () false)
          (PytorchModelWrapper.mk none) (PyFuncContext.mk ())) 0 ["img"]).1).2 =
      load_context (fun (_ : Unit) => ScriptedModel.mk () false)
        (PytorchModelWrapper.mk none) (PyFuncContext.mk ()) ∧
    (predict (fun (_ : String) => some ()) (fun (_ : Unit) (_ : List Unit) => [[(1 : ℝ)]])
        (fun (_ : Unit) (r : ℕ) (_ : List Unit) => ([], r))
        (load_context (fun (_ : Unit) => ScriptedModel.mk () false)
          (PytorchModelWrapper.mk none) (PyFuncContext.mk ())) 0 ["img"]).2 = 0 ∧
    ((predict (fun (_ : String) => some ()) (fun (_ : Unit) (_ : List Unit) => [[(1 : ℝ)]])
        (fun (_ : Unit) (r : ℕ) (_ : List Unit) => ([], r))
        ((predict (fun (_ : String) => some ())
            (fun (_ : Unit) (_ : List Unit) => [[(1 : ℝ)]])
            (fun (_ : Unit) (r : ℕ) (_ : List Unit) => ([], r))
            (load_context (fun (_ : Unit) => ScriptedModel.mk () false)
              (PytorchModelWrapper.mk none) (PyFuncContext.mk ())) 0 ["img"]).1).2
        ((predict (fun (_ : String) => some ())
            (fun (_ : Unit) (_ : List Unit) => [[(1 : ℝ)]])
            (fun (_ : Unit) (r : ℕ) (_ : List Unit) => ([], r))
            (load_context (fun (_ : Unit) => ScriptedModel.mk () false)
              (PytorchModelWrapper.mk none) (PyFuncContext.mk ())) 0 ["img"]).2)
        ["img"]).1).1 =
      ((predict (fun (_ : String) => some ()) (fun (_ : Unit) (_ : List Unit) => [[(1 : ℝ)]])
          (fun (_ : Unit) (r : ℕ) (_ : List Unit) => ([], r))
          (load_context (fun (_ : Unit) => ScriptedModel.mk () false)
            (PytorchModelWrapper.mk none) (PyFuncContext.mk ())) 0 ["img"]).1).1) :=
  ⟨rfl,
   predict_eval_mode_idempotent (fun (_ : String) => some ())
     (fun (_ : Unit) (_ : List Unit) => [[(1 : ℝ)]])
     (fun (_ : Unit) (r : ℕ) (_ : List Unit) => ([], r))
     (fun (_ : Unit) => ScriptedModel.mk () false) (PytorchModelWrapper.mk none)
     (PyFuncContext.mk ()) 0 ["img"] rfl⟩

/-! ## Bounds on the evaluation aggregates -/

/-- Indexing a mapped range inside its length picks out the mapped value. -/
theorem getD_map_range (n : ℕ) (f : ℕ → ℝ) (j : ℕ) (hj : j < n) :
    ((List.range n).map f).getD j 0 = f j := by
  rw [List.getD_eq_getElem?_getD, List.getElem?_map, List.getElem?_range hj]
  rfl

/-- Log-softmax output entries are never positive, whatever the normalization
axis: each entry subtracts the log of a sum of exponentials that contains the
entry's own exponential (here along dim 0). -/
theorem logSoftmaxDim0_entry_nonpos (m : List (List ℝ)) (row : List ℝ)
    (hrow : row ∈ logSoftmaxDim0 m) (j : ℕ) : row.getD j 0 ≤ 0 := by
  rcases List.mem_map.mp hrow with ⟨r, hr, hmap⟩
  subst hmap
  by_cases hj : j < r.length
  · rw [getD_map_range _ _ _ hj]
    have hpos : 0 < Real.exp (r.getD j 0) := Real.exp_pos _
    have hmem : Real.exp (r.getD j 0) ∈ m.map (fun rr => Real.exp (rr.getD j 0)) :=
      List.mem_map_of_mem _ hr
    have hle : Real.exp (r.getD j 0) ≤ colSumExp m j := by
      apply List.single_le_sum _ _ hmem
      intro x hx
      rcases List.mem_map.mp hx with ⟨rr, _, hrx⟩
      rw [← hrx]
      exact (Real.exp_pos _).le
    have hlog := Real.log_le_log hpos hle
    rw [Real.log_exp] at hlog
    linarith
  · rw [List.getD_eq_getElem?_getD, List.getElem?_eq_none]
    · exact le_refl 0
    · rw [List.length_map, List.length_range]
      omega

/-- The summed NLL loss of a batch is nonnegative, because the model output
went through log-softmax (its picked entries are `≤ 0` and the out-of-range
default is 0). -/
theorem nllSumBatch_nonneg (m : List (List ℝ)) (targets : List ℕ) :
    0 ≤ nllSumBatch (logSoftmaxDim0 m) targets := by
  apply List.sum_nonneg
  intro x hx
  rcases List.mem_map.mp hx with ⟨q, hq, hxq⟩
  rw [← hxq]
  have hmemout : q.1 ∈ logSoftmaxDim0 m := (List.of_mem_zip hq).1
  have := logSoftmaxDim0_entry_nonpos m q.1 hmemout q.2
  linarith

/-- A batch's correct count never exceeds its number of target rows. -/
theorem countCorrect_le (out : List (List ℝ)) (targets : List ℕ) :
    countCorrect out targets ≤ targets.length := by
  calc countCorrect out targets
      ≤ ((out.map argmaxIdx).zip targets).length := List.countP_le_length _
    _ ≤ targets.length := by
        rw [List.length_zip]
        exact min_le_right _ _

/-- The total correct count over the feed never exceeds the dataset size. -/
theorem totalCorrect_le {P : Type} (body : P → Bool → List (List ℝ) → List (List ℝ))
    (p : P) (feed : List (List (List ℝ) × List ℕ)) :
    (feed.map (fun b => countCorrect (netForward body p false b.1) b.2)).sum ≤
      datasetSize feed := by
  apply List.sum_le_sum
  intro b _
  exact countCorrect_le _ _

/-- C9: for every layer stack, parameter state and nonempty evaluation feed,
the emitted mean `test_loss` is `≥ 0` and the emitted `test_accuracy`
(`100 * correct / dataset size`) lies in `[0, 100]`. -/
theorem test_metrics_bounds {P : Type} (body : P → Bool → List (List ℝ) → List (List ℝ))
    (p : P) (feed : List (List (List ℝ) × List ℕ)) (hN : 0 < datasetSize feed) :
    0 ≤ (testPass body p feed).test_loss ∧
    0 ≤ (testPass body p feed).test_accuracy ∧
    (testPass body p feed).test_accuracy ≤ 100 := by
  have hNR : (0 : ℝ) < (datasetSize feed : ℝ) := by exact_mod_cast hN
  refine ⟨?_, ?_, ?_⟩
  · apply div_nonneg _ hNR.le
    apply List.sum_nonneg
    intro x hx
    rcases List.mem_map.mp hx with ⟨b, _, hxb⟩
    rw [← hxb]
    exact nllSumBatch_nonneg (body p false b.1) b.2
  · apply div_nonneg _ hNR.le
    have : (0 : ℝ) ≤
        ((feed.map (fun b => countCorrect (netForward body p false b.1) b.2)).sum : ℝ) :=
      Nat.cast_nonneg _
    linarith
  · rw [testPass]
    rw [div_le_iff₀ hNR]
    have hc : ((feed.map (fun b => countCorrect (netForward body p false b.1) b.2)).sum : ℝ) ≤
        (datasetSize feed : ℝ) := by
      exact_mod_cast totalCorrect_le body p feed
    linarith

/-- Witness for C9 at a concrete one-example feed with the identity layer
stack. -/
theorem test_metrics_bounds_witness :
    0 < datasetSize [([[(0 : ℝ)]], [0])] ∧
    (0 ≤ (testPass (fun (_ : Unit) _ x => x) () [([[(0 : ℝ)]], [0])]).test_loss ∧
     0 ≤ (testPass (fun (_ : Unit) _ x => x) () [([[(0 : ℝ)]], [0])]).test_accuracy ∧
     (testPass (fun (_ : Unit) _ x => x) () [([[(0 : ℝ)]], [0])]).test_accuracy ≤ 100) :=
  ⟨by decide,
   test_metrics_bounds (fun (_ : Unit) _ x => x) () [([[(0 : ℝ)]], [0])] (by decide)⟩

/-! ## The normalization-axis defect of `Net.forward` -/

/-- Indexing a replicated zero row always yields 0 (inside or outside the
length, since the default is also 0). -/
theorem getD_replicate_zero (n j : ℕ) : (List.replicate n (0 : ℝ)).getD j 0 = 0 := by
  rw [List.getD_eq_getElem?_getD, List.getElem?_replicate]
  by_cases h : j < n
  · rw [if_pos h]
    rfl
  · rw [if_neg h]
    rfl

/-- C2 (code defect, evaluated at the failing input): feed `Net.forward` a
2-row batch whose logits (layer-stack output) are the 2 × 10 zero matrix.
Because `F.log_softmax(x, dim=0)` normalizes along the batch axis, the first
output row's probabilities sum to 5, not 1 — the row is not a probability
distribution over the 10 classes.  The per-row class-axis normalization the
claim describes (`logSoftmaxDim1`) makes the same row sum to 1. -/
theorem forward_dim0_not_class_normalized :
    (((netForward (fun (_ : Unit) _ x => x) () false
        (List.replicate 2 (List.replicate 10 (0 : ℝ)))).getD 0 []).map Real.exp).sum = 5 ∧
    (5 : ℝ) ≠ 1 ∧
    (((logSoftmaxDim1 (List.replicate 2 (List.replicate 10 (0 : ℝ)))).getD 0 []).map
      Real.exp).sum = 1 := by
  have hcol : ∀ j : ℕ, colSumExp (List.replicate 2 (List.replicate 10 (0 : ℝ))) j = 2 := by
    intro j
    rw [colSumExp, List.map_replicate, getD_replicate_zero, Real.exp_zero,
      List.sum_replicate]
    norm_num
  have hdim0 : logSoftmaxDim0 (List.replicate 2 (List.replicate 10 (0 : ℝ))) =
      List.replicate 2 (List.replicate 10 (0 - Real.log 2)) := by
    rw [logSoftmaxDim0, List.map_replicate]
    congr 1
    rw [List.length_replicate]
    rw [List.map_congr_left (fun j _ => by rw [getD_replicate_zero, hcol j])]
    rw [List.map_const', List.length_range]
  have hrowexp : Real.exp (0 - Real.log 2) = 2⁻¹ := by
    rw [zero_sub, Real.exp_neg, Real.exp_log two_pos]
  have hexp10 : ((List.replicate 10 (0 : ℝ)).map Real.exp).sum = 10 := by
    rw [List.map_replicate, Real.exp_zero, List.sum_replicate]
    norm_num
  refine ⟨?_, by norm_num, ?_⟩
  · rw [show netForward (fun (_ : Unit) _ x => x) () false
        (List.replicate 2 (List.replicate 10 (0 : ℝ))) =
        logSoftmaxDim0 (List.replicate 2 (List.replicate 10 (0 : ℝ))) from rfl]
    rw [hdim0]
    rw [List.getD_eq_getElem?_getD, List.getElem?_replicate, if_pos (by norm_num)]
    rw [Option.getD_some, List.map_replicate, hrowexp, List.sum_replicate]
    norm_num
  · rw [logSoftmaxDim1, List.map_replicate]
    rw [List.getD_eq_getElem?_getD, List.getElem?_replicate, if_pos (by norm_num)]
    rw [Option.getD_some, hexp10, List.map_replicate, List.map_replicate]
    rw [zero_sub, Real.exp_neg, Real.exp_log (by norm_num : (0 : ℝ) < 10)]
    rw [List.sum_replicate]
    norm_num

/-- Witness for C4 at a concrete manifest mirroring
`mlflow.pytorch.get_default_conda_env()` with pip list `["mlflow"]`. -/
theorem add_pillow_merge_witness :
    ∃ env2,
      add_libraries_to_conda_env
        (CondaEnv.mk "mlflow-env" ["conda-forge"]
          [.str "python=3.8", .dict [("pip", ["mlflow"])]]) ["Pillow"] [] = some env2 ∧
      env2.name = "mlflow-env" ∧
      env2.channels = ["conda-forge"] ∧
      (env2.dependencies[1]?.bind DepEntry.pipList) = some ["mlflow", "Pillow"] ∧
      (∀ j, j ≠ 1 → env2.dependencies[j]? =
        ([DepEntry.str "python=3.8", .dict [("pip", ["mlflow"])]] : List DepEntry)[j]?) ∧
      env2.dependencies.length = 2 :=
  add_pillow_merge
    (CondaEnv.mk "mlflow-env" ["conda-forge"]
      [.str "python=3.8", .dict [("pip", ["mlflow"])]]) 1
    (.dict [("pip", ["mlflow"])]) (by decide) (by decide) (by decide)

end MnistScript
